import Mathlib

/-
Verification of the microwave_controller repository (Rust).

The development shallowly embeds the three source files:
  src/controller_commands.rs  — the `Command` enum and `Command::to_string`
  src/main.rs                 — `write_read`, `autodetect_sg_port`,
                                `connect_to_signal_generator`
  src/controller_properites.rs — the configuration constants

Modelling conventions:
  * `f32` command fields are modelled as exact rationals (`Rat`): every
    finite `f32` denotes a rational, and the Rust formatting `{:.2}` renders
    the exact value of the float rounded to two decimals, ties to even.
    NaN and infinity are outside the model.
  * `Duration` / `Instant::elapsed` values are natural numbers of
    nanoseconds.
  * The serial port is modelled by a script: a write outcome, a flush
    outcome, and a finite list of read events, each carrying the elapsed
    time sampled at that loop iteration together with the read outcome.
    A read that succeeds carries the lossily decoded chunk (a chunk is
    nonempty exactly when the byte count was positive).
  * The read loop is total over the finite script; `none` means the script
    ended before the loop resolved (physically: the loop is still running).
-/

/-- Absolute value times 100 (that is, `|q| * 100`) rounded to the nearest natural number, ties to even — the
rounding Rust uses when formatting a float with precision 2. Computed with
exact integer arithmetic on the numerator and denominator. -/
def roundHalfEven100 (q : ℚ) : Nat :=
  let m : Nat := q.num.natAbs * 100
  let d : Nat := q.den
  let w : Nat := m / d
  let r : Nat := m % d
  if 2 * r < d then w
  else if d < 2 * r then w + 1
  else if w % 2 = 0 then w else w + 1

/-- Decimal digits of a natural number, most significant first, with
explicit fuel so that the kernel can evaluate it. -/
def natDecimalAux : Nat → Nat → List Char
  | 0, _ => []
  | fuel + 1, n =>
    if n < 10 then [Nat.digitChar n]
    else natDecimalAux fuel (n / 10) ++ [Nat.digitChar (n % 10)]

/-- Decimal rendering of a natural number (`n` itself is always enough fuel). -/
def natDecimal (n : Nat) : List Char :=
  natDecimalAux (n + 1) n

/-- The two decimal digits of `k % 100`, as rendered after the decimal point. -/
def twoDigits (k : Nat) : List Char :=
  [Nat.digitChar (k / 10 % 10), Nat.digitChar (k % 10)]

/-- Model of the Rust formatting `format!("{:.2}", v)` on a finite `f32` whose exact value is `q`:
optional sign, integer part, a point, and exactly two decimal digits. -/
def fmtFixed2 (q : ℚ) : String :=
  let m : Nat := roundHalfEven100 q
  String.mk ((if q.num < 0 then ['-'] else []) ++ natDecimal (m / 100)
    ++ '.' :: twoDigits (m % 100))

/-- src/controller_commands.rs: the closed set of instrument operations. -/
inductive Command where
  | GetIdentity
  | GetVersion
  | GetStatus (verbose : Bool)
  | ClearErrors
  | GetFrequency
  | SetFrequency (value : ℚ)
  | GetPaPower
  | GetPowerSetpoint
  | SetPower (value : ℚ)
  | ConfigureDll (param1 param2 param3 param4 param5 param6 : ℚ)
  | DllEnable
  | DllDisable
  | RfEnable
  | RfDisable
  | SweepDbm (start stop step dwell : ℚ)
deriving DecidableEq

/-- src/controller_commands.rs, `Command::to_string`: the encoder. -/
def Command.to_string : Command → String
  | .GetIdentity => "$IDN,0"
  | .GetVersion => "$VER,0"
  | .GetStatus verbose => if verbose then "$ST,0,1" else "$ST,0"
  | .ClearErrors => "$ERRC,0"
  | .GetFrequency => "$FCG,0"
  | .SetFrequency value => "$FCS,0," ++ fmtFixed2 value
  | .GetPaPower => "$PPG,0"
  | .GetPowerSetpoint => "$PWRG,0"
  | .SetPower value => "$PWRS,0," ++ fmtFixed2 value
  | .ConfigureDll param1 param2 param3 param4 param5 param6 =>
      "$DLES,0," ++ fmtFixed2 param1 ++ "," ++ fmtFixed2 param2 ++ ","
        ++ fmtFixed2 param3 ++ "," ++ fmtFixed2 param4 ++ ","
        ++ fmtFixed2 param5 ++ "," ++ fmtFixed2 param6
  | .DllEnable => "$DLES,0,1"
  | .DllDisable => "$DLES,0,0"
  | .RfEnable => "$ECS,0,1"
  | .RfDisable => "$ECS,0,0"
  | .SweepDbm start stop step dwell =>
      "$SWPD,0," ++ fmtFixed2 start ++ "," ++ fmtFixed2 stop ++ ","
        ++ fmtFixed2 step ++ "," ++ fmtFixed2 dwell ++ ",0"

/-- The wire format of each command as given by the encoding table of the
specification (section 4.1): fixed ASCII prefix token, constant channel
selector 0, then the fields in the listed order, numeric fields with fixed
two-decimal formatting. -/
def encodeSpec : Command → String
  | .GetIdentity => "$IDN,0"
  | .GetVersion => "$VER,0"
  | .GetStatus true => "$ST,0,1"
  | .GetStatus false => "$ST,0"
  | .ClearErrors => "$ERRC,0"
  | .GetFrequency => "$FCG,0"
  | .SetFrequency v => "$FCS,0," ++ fmtFixed2 v
  | .GetPaPower => "$PPG,0"
  | .GetPowerSetpoint => "$PWRG,0"
  | .SetPower v => "$PWRS,0," ++ fmtFixed2 v
  | .ConfigureDll p1 p2 p3 p4 p5 p6 =>
      "$DLES,0," ++ fmtFixed2 p1 ++ "," ++ fmtFixed2 p2 ++ ","
        ++ fmtFixed2 p3 ++ "," ++ fmtFixed2 p4 ++ ","
        ++ fmtFixed2 p5 ++ "," ++ fmtFixed2 p6
  | .DllEnable => "$DLES,0,1"
  | .DllDisable => "$DLES,0,0"
  | .RfEnable => "$ECS,0,1"
  | .RfDisable => "$ECS,0,0"
  | .SweepDbm start stop step dwell =>
      "$SWPD,0," ++ fmtFixed2 start ++ "," ++ fmtFixed2 stop ++ ","
        ++ fmtFixed2 step ++ "," ++ fmtFixed2 dwell ++ ",0"

/-- Does the character list start with a line feed? -/
def startsWithLF : List Char → Bool
  | '\n' :: _ => true
  | _ => false

/-- Model of `buffer.contains("\r\n")` from src/main.rs: does the character list
contain a carriage return immediately followed by a line feed? -/
def containsCRLFList : List Char → Bool
  | [] => false
  | a :: rest => (a == '\r' && startsWithLF rest) || containsCRLFList rest

/-- String form of the terminator test used by the read loop. -/
def containsCRLF (s : String) : Bool :=
  containsCRLFList s.data

/-- Outcome of one `port.read(&mut temp_buffer)` call. A successful read
carries the lossily decoded chunk; the chunk is nonempty exactly when the
byte count `bytes_read` was positive. `timedOut` is an error of kind
`std::io::ErrorKind::TimedOut`; `fault` is an error of any other kind. -/
inductive ReadResult where
  | ok (chunk : String)
  | timedOut
  | fault
deriving DecidableEq

/-- The four distinct error values `write_read` can return (in the source
they are distinct message strings; the spec names them as typed kinds). -/
inductive ExchangeError where
  | writeFailed
  | flushFailed
  | readFailed
  | timeout
deriving DecidableEq

/-- Result of an exchange: the framed response or a typed failure. -/
inductive ExchangeResult where
  | ok (response : String)
  | err (e : ExchangeError)
deriving DecidableEq

/-- The local `timeout = Duration::from_millis(500)` of `write_read`
(src/main.rs line 124), in nanoseconds. -/
def READ_TIMEOUT : Nat := 500000000

/-- The `while !buffer.contains("\r\n")` loop of `write_read`
(src/main.rs lines 127-142). Each event pairs the elapsed time (in
nanoseconds, as sampled by `start_time.elapsed()` at the top of that
iteration) with the outcome of the read made in that iteration. `none` means the
finite event script ran out before the loop resolved. -/
def readLoop (timeout : Nat) :
    List (Nat × ReadResult) → String → Option ExchangeResult
  | [], buffer => if containsCRLF buffer then some (.ok buffer) else none
  | (elapsed, r) :: rest, buffer =>
    if containsCRLF buffer then some (.ok buffer)
    else if timeout ≤ elapsed then some (.err .timeout)
    else
      match r with
      | .ok chunk =>
          readLoop timeout rest
            (if 0 < chunk.length then buffer ++ chunk else buffer)
      | .timedOut => readLoop timeout rest buffer
      | .fault => some (.err .readFailed)

/-- The function `write_read` (src/main.rs lines 110-145). The port is modelled by the
outcome of `write_all`, the outcome of `flush`, and the script of read
events. The first component of the result is the byte sequence handed to
`write_all` (the command with the terminator appended); the second is the
returned `Result`. -/
def write_read (writeOk flushOk : Bool) (events : List (Nat × ReadResult))
    (tx : String) : List Char × Option ExchangeResult :=
  let command := tx ++ "\r\n"
  ( command.data
  , if writeOk = false then some (.err .writeFailed)
    else if flushOk = false then some (.err .flushFailed)
    else readLoop READ_TIMEOUT events "" )

/-- serialport::DataBits. -/
inductive DataBits where
  | Five | Six | Seven | Eight
deriving DecidableEq

/-- serialport::Parity. -/
inductive Parity where
  | None | Odd | Even
deriving DecidableEq

/-- serialport::FlowControl. -/
inductive FlowControl where
  | None | Software | Hardware
deriving DecidableEq

/-- serialport::StopBits. -/
inductive StopBits where
  | One | Two
deriving DecidableEq

/- src/controller_properites.rs: the configuration constants.
Durations are in nanoseconds. -/

def TARGET_VENDOR_ID : Nat := 8137

def TARGET_PRODUCT_ID : Nat := 131

def BAUD_RATE : Nat := 115200

def DATA_BITS : DataBits := .Eight

def PARITY : Parity := .None

def FLOW_CONTROL : FlowControl := .None

def STOP_BITS : StopBits := .One

def TIMEOUT : Nat := 10000000000

/-- The transport configuration assembled by the builder chain in
`connect_to_signal_generator` (src/main.rs lines 63-69). -/
structure PortConfig where
  baud_rate : Nat
  data_bits : DataBits
  parity : Parity
  flow_control : FlowControl
  stop_bits : StopBits
  timeout_ns : Nat
deriving DecidableEq

/-- Modelled from the spec: src/main.rs line 68 passes `CONNECTION_TIMEOUT`
to `.timeout(...)`, but no constant of that name is defined anywhere in the
repository — the constants file defines only `TIMEOUT`. Per the spec the
open timeout is the single defined timeout constant (10 seconds), so the
model resolves the undefined name to `TIMEOUT`. -/
def connectPortConfig : PortConfig :=
  { baud_rate := BAUD_RATE
  , data_bits := DATA_BITS
  , parity := PARITY
  , flow_control := FLOW_CONTROL
  , stop_bits := STOP_BITS
  , timeout_ns := TIMEOUT }

/-- serialport::UsbPortInfo (the fields the filter consults; `vid` and
`pid` are u16 values). -/
structure UsbPortInfo where
  vid : Nat
  pid : Nat
deriving DecidableEq

/-- serialport::SerialPortType. -/
inductive SerialPortType where
  | UsbPort (info : UsbPortInfo)
  | PciPort
  | BluetoothPort
  | Unknown
deriving DecidableEq

/-- serialport::SerialPortInfo (the fields the program consults). -/
structure SerialPortInfo where
  port_name : String
  port_type : SerialPortType
deriving DecidableEq

/-- The predicate of the `filter` closure in `autodetect_sg_port`
(src/main.rs lines 99-105). -/
def sgMatch (port : SerialPortInfo) : Bool :=
  match port.port_type with
  | .UsbPort usb_info =>
      usb_info.vid == TARGET_VENDOR_ID && usb_info.pid == TARGET_PRODUCT_ID
  | _ => false

/-- The function `autodetect_sg_port` (src/main.rs lines 88-108), applied to the list
the enumeration collaborator returned. -/
def autodetect_sg_port (available_ports : List SerialPortInfo) :
    List SerialPortInfo :=
  available_ports.filter sgMatch

/-- The endpoint-selection logic of `connect_to_signal_generator`
(src/main.rs lines 48-61): if no signal generator was detected, report and
return `None`; otherwise take `&signal_generators[0]` and hand it to the
transport provider to open. Opening is a step of the external collaborator, so
the model returns the selected endpoint descriptor. -/
def connect_to_signal_generator (available_ports : List SerialPortInfo) :
    Option SerialPortInfo :=
  let signal_generators := autodetect_sg_port available_ports
  match signal_generators with
  | [] => none
  | first_signal_generator :: _ => some first_signal_generator

/-- The chunk delivered by a read event, when the read succeeded. -/
def chunkOf : Nat × ReadResult → Option String
  | (_, .ok chunk) => some chunk
  | (_, .timedOut) => none
  | (_, .fault) => none

/-- Concatenation of a list of chunks, in order. -/
def concatChunks : List String → String
  | [] => ""
  | c :: rest => c ++ concatChunks rest

theorem digitChar_isDigit : ∀ n < 10, (Nat.digitChar n).isDigit = true := by
  decide

theorem mem_natDecimalAux :
    ∀ (fuel n : Nat) (c : Char), c ∈ natDecimalAux fuel n → c.isDigit = true := by
  intro fuel
  induction fuel with
  | zero => intro n c h; simp [natDecimalAux] at h
  | succ fuel ih =>
    intro n c h
    by_cases hn : n < 10
    · rw [natDecimalAux, if_pos hn] at h
      simp only [List.mem_singleton] at h
      subst h
      exact digitChar_isDigit n hn
    · rw [natDecimalAux, if_neg hn] at h
      rcases List.mem_append.1 h with h | h
      · exact ih _ _ h
      · simp only [List.mem_singleton] at h
        subst h
        exact digitChar_isDigit _ (Nat.mod_lt _ (by omega))

theorem mem_natDecimal (n : Nat) (c : Char) (h : c ∈ natDecimal n) :
    c.isDigit = true :=
  mem_natDecimalAux (n + 1) n c h

theorem mem_twoDigits (k : Nat) (c : Char) (h : c ∈ twoDigits k) :
    c.isDigit = true := by
  simp only [twoDigits, List.mem_cons, List.mem_singleton, List.not_mem_nil,
    or_false] at h
  rcases h with h | h <;> subst h <;>
    exact digitChar_isDigit _ (Nat.mod_lt _ (by omega))

theorem fmtFixed2_data (q : ℚ) : (fmtFixed2 q).data =
    (if q.num < 0 then ['-'] else [])
      ++ natDecimal (roundHalfEven100 q / 100)
      ++ '.' :: twoDigits (roundHalfEven100 q % 100) := rfl

theorem mem_fmtFixed2 (q : ℚ) (c : Char) (h : c ∈ (fmtFixed2 q).data) :
    c = '-' ∨ c = '.' ∨ c.isDigit = true := by
  rw [fmtFixed2_data] at h
  rcases List.mem_append.1 h with h | h
  · rcases List.mem_append.1 h with h | h
    · by_cases hq : q.num < 0
      · rw [if_pos hq] at h
        simp only [List.mem_singleton] at h
        exact Or.inl h
      · rw [if_neg hq] at h
        simp at h
    · exact Or.inr (Or.inr (mem_natDecimal _ _ h))
  · rcases List.mem_cons.1 h with h | h
    · exact Or.inr (Or.inl h)
    · exact Or.inr (Or.inr (mem_twoDigits _ _ h))

theorem cr_not_mem_fmtFixed2 (q : ℚ) : '\r' ∉ (fmtFixed2 q).data := by
  intro h
  rcases mem_fmtFixed2 q _ h with h | h | h <;> exact absurd h (by decide)

theorem no_cr_append {a b : String} (ha : '\r' ∉ a.data) (hb : '\r' ∉ b.data) :
    '\r' ∉ (a ++ b).data := by
  rw [String.data_append]
  intro h
  rcases List.mem_append.1 h with h | h
  · exact ha h
  · exact hb h

theorem containsCRLFList_eq_false {l : List Char} (h : '\r' ∉ l) :
    containsCRLFList l = false := by
  induction l with
  | nil => rfl
  | cons a rest ih =>
    rw [containsCRLFList]
    have ha : (a == '\r') = false :=
      beq_eq_false_iff_ne.mpr (fun e => h (by simp [e]))
    simp only [ha, Bool.false_and, Bool.false_or]
    exact ih (fun hm => h (List.mem_cons_of_mem _ hm))

theorem containsCRLF_eq_false {s : String} (h : '\r' ∉ s.data) :
    containsCRLF s = false :=
  containsCRLFList_eq_false h

theorem readLoop_nil_done (timeout : Nat) (buffer : String)
    (hb : containsCRLF buffer = true) :
    readLoop timeout [] buffer = some (.ok buffer) := by
  rw [readLoop, if_pos hb]

theorem readLoop_nil_stuck (timeout : Nat) (buffer : String)
    (hb : ¬containsCRLF buffer = true) :
    readLoop timeout [] buffer = none := by
  rw [readLoop, if_neg hb]

theorem readLoop_cons_done (timeout elapsed : Nat) (rr : ReadResult)
    (rest : List (Nat × ReadResult)) (buffer : String)
    (hb : containsCRLF buffer = true) :
    readLoop timeout ((elapsed, rr) :: rest) buffer = some (.ok buffer) := by
  cases rr <;> rw [readLoop, if_pos hb]

theorem readLoop_cons_deadline (timeout elapsed : Nat) (rr : ReadResult)
    (rest : List (Nat × ReadResult)) (buffer : String)
    (hb : ¬containsCRLF buffer = true) (ht : timeout ≤ elapsed) :
    readLoop timeout ((elapsed, rr) :: rest) buffer
      = some (.err .timeout) := by
  cases rr <;> rw [readLoop, if_neg hb, if_pos ht]

theorem readLoop_cons_read (timeout elapsed : Nat) (chunk : String)
    (rest : List (Nat × ReadResult)) (buffer : String)
    (hb : ¬containsCRLF buffer = true) (ht : ¬timeout ≤ elapsed) :
    readLoop timeout ((elapsed, .ok chunk) :: rest) buffer
      = readLoop timeout rest
          (if 0 < chunk.length then buffer ++ chunk else buffer) := by
  rw [readLoop, if_neg hb, if_neg ht]

theorem readLoop_cons_timedOut (timeout elapsed : Nat)
    (rest : List (Nat × ReadResult)) (buffer : String)
    (hb : ¬containsCRLF buffer = true) (ht : ¬timeout ≤ elapsed) :
    readLoop timeout ((elapsed, .timedOut) :: rest) buffer
      = readLoop timeout rest buffer := by
  rw [readLoop, if_neg hb, if_neg ht]

theorem readLoop_cons_fault (timeout elapsed : Nat)
    (rest : List (Nat × ReadResult)) (buffer : String)
    (hb : ¬containsCRLF buffer = true) (ht : ¬timeout ≤ elapsed) :
    readLoop timeout ((elapsed, .fault) :: rest) buffer
      = some (.err .readFailed) := by
  rw [readLoop, if_neg hb, if_neg ht]

theorem length_pos_append (buffer chunk : String) :
    (if 0 < chunk.length then buffer ++ chunk else buffer)
      = buffer ++ chunk := by
  by_cases hc : 0 < chunk.length
  · rw [if_pos hc]
  · rw [if_neg hc]
    have he : chunk = "" := by
      cases chunk with
      | mk cdata =>
        cases cdata with
        | nil => rfl
        | cons c cs => exact absurd (by simp [String.length]) hc
    rw [he, String.append_empty]

theorem readLoop_ok (timeout : Nat) :
    ∀ (events : List (Nat × ReadResult)) (buffer s : String),
      readLoop timeout events buffer = some (.ok s) →
      containsCRLF s = true ∧
      ∃ pre suf, events = pre ++ suf ∧
        s = buffer ++ concatChunks (pre.filterMap chunkOf) := by
  intro events
  induction events with
  | nil =>
    intro buffer s h
    by_cases hb : containsCRLF buffer = true
    · rw [readLoop_nil_done _ _ hb] at h
      simp only [Option.some.injEq, ExchangeResult.ok.injEq] at h
      subst h
      exact ⟨hb, [], [], rfl, (String.append_empty buffer).symm⟩
    · rw [readLoop_nil_stuck _ _ hb] at h
      exact Option.noConfusion h
  | cons p rest ih =>
    intro buffer s h
    obtain ⟨elapsed, rr⟩ := p
    by_cases hb : containsCRLF buffer = true
    · rw [readLoop_cons_done _ _ _ _ _ hb] at h
      simp only [Option.some.injEq, ExchangeResult.ok.injEq] at h
      subst h
      exact ⟨hb, [], (elapsed, rr) :: rest, rfl,
        (String.append_empty buffer).symm⟩
    · by_cases ht : timeout ≤ elapsed
      · rw [readLoop_cons_deadline _ _ _ _ _ hb ht] at h
        exact absurd h (by simp)
      · cases rr with
        | ok chunk =>
          rw [readLoop_cons_read _ _ _ _ _ hb ht, length_pos_append] at h
          obtain ⟨hcrlf, pre, suf, hsplit, hs⟩ := ih _ _ h
          refine ⟨hcrlf, (elapsed, .ok chunk) :: pre, suf, by rw [hsplit]; rfl, ?_⟩
          rw [hs]
          simp only [List.filterMap_cons, chunkOf, concatChunks,
            String.append_assoc]
        | timedOut =>
          rw [readLoop_cons_timedOut _ _ _ _ hb ht] at h
          obtain ⟨hcrlf, pre, suf, hsplit, hs⟩ := ih _ _ h
          refine ⟨hcrlf, (elapsed, .timedOut) :: pre, suf, by rw [hsplit]; rfl, ?_⟩
          rw [hs]
          simp only [List.filterMap_cons, chunkOf]
        | fault =>
          rw [readLoop_cons_fault _ _ _ _ hb ht] at h
          exact absurd h (by simp)

theorem readLoop_no_fault (timeout : Nat) :
    ∀ (events : List (Nat × ReadResult)) (buffer : String) (r : ExchangeResult),
      (∀ e ∈ events, e.2 ≠ ReadResult.fault) →
      readLoop timeout events buffer = some r →
      (∃ s, r = .ok s) ∨ r = .err .timeout := by
  intro events
  induction events with
  | nil =>
    intro buffer r _ h
    rw [readLoop] at h
    by_cases hb : containsCRLF buffer = true
    · rw [if_pos hb] at h
      simp only [Option.some.injEq] at h
      exact Or.inl ⟨buffer, h.symm⟩
    · rw [if_neg hb] at h
      exact Option.noConfusion h
  | cons p rest ih =>
    intro buffer r hall h
    obtain ⟨elapsed, rr⟩ := p
    by_cases hb : containsCRLF buffer = true
    · rw [readLoop_cons_done _ _ _ _ _ hb] at h
      simp only [Option.some.injEq] at h
      exact Or.inl ⟨buffer, h.symm⟩
    · by_cases ht : timeout ≤ elapsed
      · rw [readLoop_cons_deadline _ _ _ _ _ hb ht] at h
        simp only [Option.some.injEq] at h
        exact Or.inr h.symm
      · cases rr with
        | ok chunk =>
          rw [readLoop_cons_read _ _ _ _ _ hb ht] at h
          exact ih _ _ (fun e he => hall e (List.mem_cons_of_mem _ he)) h
        | timedOut =>
          rw [readLoop_cons_timedOut _ _ _ _ hb ht] at h
          exact ih _ _ (fun e he => hall e (List.mem_cons_of_mem _ he)) h
        | fault =>
          exact absurd rfl (hall (elapsed, .fault) (List.mem_cons_self _ _))

theorem readLoop_zero_bytes (timeout : Nat) :
    ∀ (events : List (Nat × ReadResult)) (buffer : String) (r : ExchangeResult),
      (∀ e ∈ events, e.2 = ReadResult.ok "") →
      readLoop timeout events buffer = some r →
      (r = .ok buffer ∧ containsCRLF buffer = true) ∨ r = .err .timeout := by
  intro events
  induction events with
  | nil =>
    intro buffer r _ h
    rw [readLoop] at h
    by_cases hb : containsCRLF buffer = true
    · rw [if_pos hb] at h
      simp only [Option.some.injEq] at h
      exact Or.inl ⟨h.symm, hb⟩
    · rw [if_neg hb] at h
      exact Option.noConfusion h
  | cons p rest ih =>
    intro buffer r hall h
    obtain ⟨elapsed, rr⟩ := p
    have hrr : rr = ReadResult.ok "" :=
      hall (elapsed, rr) (List.mem_cons_self _ _)
    subst hrr
    rw [readLoop] at h
    by_cases hb : containsCRLF buffer = true
    · rw [if_pos hb] at h
      simp only [Option.some.injEq] at h
      exact Or.inl ⟨h.symm, hb⟩
    · rw [if_neg hb] at h
      by_cases ht : timeout ≤ elapsed
      · rw [if_pos ht] at h
        simp only [Option.some.injEq] at h
        exact Or.inr h.symm
      · rw [if_neg ht] at h
        exact ih _ _ (fun e he => hall e (List.mem_cons_of_mem _ he)) h

/-- C1: for every value of the closed `Command` variant set, the encoder
`Command.to_string` returns exactly the wire string of the encoding table of the
specification, and in particular the four concrete encodings listed by
the spec hold. -/
theorem C1_encoder_matches_spec_table :
    (∀ c : Command, c.to_string = encodeSpec c) ∧
    Command.to_string (.SetFrequency 50) = "$FCS,0,50.00" ∧
    Command.to_string (.ConfigureDll 1 2 3 4 5 6)
      = "$DLES,0,1.00,2.00,3.00,4.00,5.00,6.00" ∧
    Command.to_string (.GetStatus true) = "$ST,0,1" ∧
    Command.to_string (.GetStatus false) = "$ST,0" := by
  refine ⟨fun c => ?_, by decide, by decide, by decide, by decide⟩
  cases c
  case GetStatus v => cases v <;> rfl
  all_goals rfl

/-- C2: one iteration of the read loop classifies read outcomes three
ways: a read of N > 0 bytes appends the decoded chunk to the buffer and
the loop continues; a timeout-kind error is no-data-yet and the loop
continues; any other error aborts with `readFailed`, which is distinct
from `timeout`. -/
theorem C2_read_outcome_three_way_classification
    (timeout elapsed : Nat) (rest : List (Nat × ReadResult))
    (buffer chunk : String)
    (hb : containsCRLF buffer = false) (ht : elapsed < timeout) :
    (0 < chunk.length →
      readLoop timeout ((elapsed, .ok chunk) :: rest) buffer
        = readLoop timeout rest (buffer ++ chunk)) ∧
    (readLoop timeout ((elapsed, .timedOut) :: rest) buffer
      = readLoop timeout rest buffer) ∧
    (readLoop timeout ((elapsed, .fault) :: rest) buffer
      = some (.err .readFailed)) ∧
    ExchangeError.readFailed ≠ ExchangeError.timeout := by
  have hb' : ¬containsCRLF buffer = true := by simp [hb]
  have ht' : ¬timeout ≤ elapsed := Nat.not_le.mpr ht
  refine ⟨fun hc => ?_, readLoop_cons_timedOut _ _ _ _ hb' ht',
    readLoop_cons_fault _ _ _ _ hb' ht', by decide⟩
  rw [readLoop_cons_read _ _ _ _ _ hb' ht', if_pos hc]

/-- Witness for C2 at concrete inputs. -/
theorem C2_witness :
    readLoop 500000000 [((0 : Nat), ReadResult.ok "X")] ""
      = readLoop 500000000 [] ("" ++ "X") ∧
    readLoop 500000000 [((0 : Nat), ReadResult.timedOut)] ""
      = readLoop 500000000 [] "" ∧
    readLoop 500000000 [((0 : Nat), ReadResult.fault)] ""
      = some (.err .readFailed) ∧
    ExchangeError.readFailed ≠ ExchangeError.timeout := by
  have h := C2_read_outcome_three_way_classification 500000000 0 [] "" "X"
    (by decide) (by decide)
  exact ⟨h.1 (by decide), h.2.1, h.2.2.1, h.2.2.2⟩

/-- C3: when write and flush succeed and every read yields bytes or a
timeout-kind error, a resolving exchange returns `ok` exactly when the
terminator reached the buffer before the deadline check fired: on success
the response is the concatenation of the chunks read so far and contains
"\r\n", and otherwise the result is `timeout`; moreover once the buffer
contains the terminator the loop exits successfully regardless of the
deadline. -/
theorem C3_exchange_ok_iff_terminator_before_deadline :
    (∀ (events : List (Nat × ReadResult)) (tx : String)
        (r : ExchangeResult),
      (∀ e ∈ events, e.2 ≠ ReadResult.fault) →
      (write_read true true events tx).2 = some r →
      (∃ s, r = .ok s ∧ containsCRLF s = true ∧
        ∃ pre suf, events = pre ++ suf ∧
          s = concatChunks (pre.filterMap chunkOf)) ∨
      r = .err .timeout) ∧
    (∀ (timeout elapsed : Nat) (rr : ReadResult)
        (rest : List (Nat × ReadResult)) (buffer : String),
      containsCRLF buffer = true →
      readLoop timeout ((elapsed, rr) :: rest) buffer
        = some (.ok buffer)) := by
  refine ⟨fun events tx r hnf hr => ?_,
    fun timeout elapsed rr rest buffer hb =>
      readLoop_cons_done _ _ _ _ _ hb⟩
  have hr' : readLoop READ_TIMEOUT events "" = some r := hr
  rcases readLoop_no_fault READ_TIMEOUT events "" r hnf hr' with ⟨s, rfl⟩ | rfl
  · obtain ⟨hcrlf, pre, suf, hsplit, hs⟩ := readLoop_ok _ _ _ _ hr'
    refine Or.inl ⟨s, rfl, hcrlf, pre, suf, hsplit, ?_⟩
    rw [hs, String.empty_append]
  · exact Or.inr rfl

/-- Witness for C3: a response arriving in two chunks, and a buffered
terminator exiting the loop. -/
theorem C3_witness :
    ((∃ s, ExchangeResult.ok "AB\r\n" = .ok s ∧ containsCRLF s = true ∧
      ∃ pre suf,
        ([((0 : Nat), ReadResult.ok "A"), (1000, ReadResult.ok "B\r\n")] :
            List (Nat × ReadResult)) = pre ++ suf ∧
        s = concatChunks (pre.filterMap chunkOf)) ∨
      ExchangeResult.ok "AB\r\n" = .err .timeout) ∧
    readLoop 500000000 [((600000000 : Nat), ReadResult.timedOut)] "ok\r\n"
      = some (.ok "ok\r\n") := by
  have h := C3_exchange_ok_iff_terminator_before_deadline
  exact ⟨h.1 [(0, .ok "A"), (1000, .ok "B\r\n")] "$FCG,0" (.ok "AB\r\n")
      (by decide) (by decide),
    h.2 500000000 600000000 .timedOut [] "ok\r\n" (by decide)⟩

/-- C4: no encoded command contains the terminator sequence; the exchange
itself hands the transport exactly the wire-command bytes followed by the
two terminator bytes. -/
theorem C4_terminator_appended_only_by_exchange :
    (∀ c : Command, containsCRLF c.to_string = false) ∧
    (∀ (writeOk flushOk : Bool) (events : List (Nat × ReadResult))
        (tx : String),
      (write_read writeOk flushOk events tx).1 = (tx ++ "\r\n").data) := by
  constructor
  · intro c
    cases c
    case GetStatus v => cases v <;> decide
    case SetFrequency v =>
      exact containsCRLF_eq_false
        (no_cr_append (by decide) (cr_not_mem_fmtFixed2 v))
    case SetPower v =>
      exact containsCRLF_eq_false
        (no_cr_append (by decide) (cr_not_mem_fmtFixed2 v))
    case ConfigureDll p1 p2 p3 p4 p5 p6 =>
      apply containsCRLF_eq_false
      repeat
        first
          | exact cr_not_mem_fmtFixed2 _
          | apply no_cr_append
          | decide
    case SweepDbm a b c d =>
      apply containsCRLF_eq_false
      repeat
        first
          | exact cr_not_mem_fmtFixed2 _
          | apply no_cr_append
          | decide
    all_goals decide
  · intro writeOk flushOk events tx
    rfl

/-- C5: every numeric field of the numeric-carrying variants is rendered
by `fmtFixed2`, and for every rational input `fmtFixed2` produces a string
ending in a decimal point followed by exactly two decimal digits. -/
theorem C5_two_decimal_rendering :
    (∀ q : ℚ, ∃ pre d1 d2,
      fmtFixed2 q = pre ++ String.mk ['.', d1, d2] ∧
      d1.isDigit = true ∧ d2.isDigit = true) ∧
    (∀ v, Command.to_string (.SetFrequency v) = "$FCS,0," ++ fmtFixed2 v) ∧
    (∀ v, Command.to_string (.SetPower v) = "$PWRS,0," ++ fmtFixed2 v) ∧
    (∀ p1 p2 p3 p4 p5 p6,
      Command.to_string (.ConfigureDll p1 p2 p3 p4 p5 p6)
      = "$DLES,0," ++ fmtFixed2 p1 ++ "," ++ fmtFixed2 p2 ++ ","
        ++ fmtFixed2 p3 ++ "," ++ fmtFixed2 p4 ++ ","
        ++ fmtFixed2 p5 ++ "," ++ fmtFixed2 p6) ∧
    (∀ a b c d, Command.to_string (.SweepDbm a b c d)
      = "$SWPD,0," ++ fmtFixed2 a ++ "," ++ fmtFixed2 b ++ ","
        ++ fmtFixed2 c ++ "," ++ fmtFixed2 d ++ ",0") := by
  refine ⟨fun q => ?_, fun v => rfl, fun v => rfl, fun _ _ _ _ _ _ => rfl,
    fun _ _ _ _ => rfl⟩
  refine ⟨String.mk ((if q.num < 0 then ['-'] else [])
      ++ natDecimal (roundHalfEven100 q / 100)),
    Nat.digitChar (roundHalfEven100 q % 100 / 10 % 10),
    Nat.digitChar (roundHalfEven100 q % 100 % 10), rfl, ?_, ?_⟩
  · exact digitChar_isDigit _ (Nat.mod_lt _ (by omega))
  · exact digitChar_isDigit _ (Nat.mod_lt _ (by omega))

/-- C6: a failed write aborts the exchange with `writeFailed` whatever the
read script (so before any read attempt and without consulting the
deadline), and a failed flush after a successful write aborts with the
distinct `flushFailed`, likewise independent of the read script. -/
theorem C6_write_flush_failures_abort_early :
    (∀ (flushOk : Bool) (events : List (Nat × ReadResult)) (tx : String),
      (write_read false flushOk events tx).2 = some (.err .writeFailed)) ∧
    (∀ (events : List (Nat × ReadResult)) (tx : String),
      (write_read true false events tx).2 = some (.err .flushFailed)) ∧
    ExchangeError.writeFailed ≠ ExchangeError.flushFailed :=
  ⟨fun _ _ _ => rfl, fun _ _ => rfl, by decide⟩

/-- C7 counterexample: the exchange enforces no caller-supplied frame
deadline. `write_read` takes no such parameter, and here a read attempt at
elapsed time 100 ms — past a supposed caller-chosen 50 ms deadline — does
not abort: the exchange still succeeds later. -/
theorem C7_counterexample :
    (50000000 : Nat) ≤ 100000000 ∧
    (write_read true true
        [(100000000, ReadResult.timedOut),
          (200000000, ReadResult.ok "X\r\n")] "$ST,0").2
      = some (.ok "X\r\n") :=
  ⟨by decide, by decide⟩

/-- C7 amended: `write_read` takes no frame-deadline parameter; its read
loop runs against the fixed internal constant `READ_TIMEOUT` of 500 ms,
aborting with `timeout` at the first iteration whose sampled elapsed time
reaches 500 ms without the terminator buffered, and continuing when the
elapsed time is still below 500 ms. -/
theorem C7_fixed_internal_deadline :
    READ_TIMEOUT = 500000000 ∧
    (∀ (events : List (Nat × ReadResult)) (tx : String),
      (write_read true true events tx).2
        = readLoop READ_TIMEOUT events "") ∧
    (∀ (elapsed : Nat) (rr : ReadResult) (rest : List (Nat × ReadResult))
        (buffer : String),
      containsCRLF buffer = false → 500000000 ≤ elapsed →
      readLoop READ_TIMEOUT ((elapsed, rr) :: rest) buffer
        = some (.err .timeout)) ∧
    (∀ (elapsed : Nat) (rest : List (Nat × ReadResult)) (buffer : String),
      containsCRLF buffer = false → elapsed < 500000000 →
      readLoop READ_TIMEOUT ((elapsed, .timedOut) :: rest) buffer
        = readLoop READ_TIMEOUT rest buffer) := by
  refine ⟨rfl, fun _ _ => rfl, fun elapsed rr rest buffer hb ht => ?_,
    fun elapsed rest buffer hb ht => ?_⟩
  · exact readLoop_cons_deadline _ _ _ _ _ (by simp [hb]) ht
  · exact readLoop_cons_timedOut _ _ _ _ (by simp [hb]) (Nat.not_le.mpr ht)

/-- Witness for the amended C7 at concrete inputs: at exactly 500 ms the
loop aborts with `timeout`; just below, it keeps looping. -/
theorem C7_witness :
    readLoop READ_TIMEOUT [((500000000 : Nat), ReadResult.timedOut)] ""
      = some (.err .timeout) ∧
    readLoop READ_TIMEOUT [((499999999 : Nat), ReadResult.timedOut)] ""
      = readLoop READ_TIMEOUT [] "" :=
  ⟨C7_fixed_internal_deadline.2.2.1 500000000 .timedOut [] "" (by decide)
      (by decide),
    C7_fixed_internal_deadline.2.2.2 499999999 [] "" (by decide) (by decide)⟩

/-- C8: the connection open configures baud 115200, eight data bits, no
parity, no flow control, one stop bit, and the 10-second timeout that is
the single timeout constant of the configuration file (the name
`CONNECTION_TIMEOUT` used by the source is undefined there; the model resolves it to the
sole constant `TIMEOUT`). -/
theorem C8_connection_open_configuration :
    connectPortConfig =
      { baud_rate := 115200, data_bits := .Eight, parity := .None
      , flow_control := .None, stop_bits := .One
      , timeout_ns := 10000000000 } ∧
    TIMEOUT = 10 * 1000000000 :=
  ⟨rfl, by decide⟩

theorem sgMatch_iff (p : SerialPortInfo) :
    sgMatch p = true ↔
      ∃ info, p.port_type = SerialPortType.UsbPort info ∧
        info.vid = 8137 ∧ info.pid = 131 := by
  obtain ⟨name, ptype⟩ := p
  cases ptype with
  | UsbPort info => simp [sgMatch, TARGET_VENDOR_ID, TARGET_PRODUCT_ID]
  | PciPort => simp [sgMatch]
  | BluetoothPort => simp [sgMatch]
  | Unknown => simp [sgMatch]

/-- C9: the discovery filter keeps exactly the USB endpoints with vendor
identifier 8137 and product identifier 131, preserving order, and the
connect operation selects the first such endpoint — yielding no endpoint
(so the caller reports and returns early) when nothing matches. -/
theorem C9_discovery_filter_and_selection :
    (∀ (ports : List SerialPortInfo) (p : SerialPortInfo),
      p ∈ autodetect_sg_port ports ↔
        p ∈ ports ∧ ∃ info, p.port_type = SerialPortType.UsbPort info ∧
          info.vid = 8137 ∧ info.pid = 131) ∧
    (∀ ports : List SerialPortInfo,
      (autodetect_sg_port ports).Sublist ports) ∧
    (∀ ports : List SerialPortInfo,
      connect_to_signal_generator ports
        = (autodetect_sg_port ports).head?) := by
  refine ⟨fun ports p => ?_, fun ports => List.filter_sublist _,
    fun ports => ?_⟩
  · rw [autodetect_sg_port, List.mem_filter, sgMatch_iff]
  · show (match autodetect_sg_port ports with
      | [] => none
      | first :: _ => some first) = (autodetect_sg_port ports).head?
    cases autodetect_sg_port ports <;> rfl

/-- C10: a read that succeeds with zero bytes leaves the buffer unchanged
and the loop continues (it never causes `readFailed`); against a transport
that forever returns zero-byte reads, a resolving loop ends `ok` only with
the terminator already buffered and otherwise in `timeout` — in a full
exchange, whose buffer starts empty, only `timeout` is possible. -/
theorem C10_zero_byte_reads
    (timeout elapsed : Nat) (rest : List (Nat × ReadResult))
    (buffer : String)
    (hb : containsCRLF buffer = false) (ht : elapsed < timeout) :
    (readLoop timeout ((elapsed, .ok "") :: rest) buffer
      = readLoop timeout rest buffer) ∧
    (∀ (events : List (Nat × ReadResult)) (buf : String)
        (r : ExchangeResult),
      (∀ e ∈ events, e.2 = ReadResult.ok "") →
      readLoop timeout events buf = some r →
      (r = .ok buf ∧ containsCRLF buf = true) ∨ r = .err .timeout) ∧
    (∀ (events : List (Nat × ReadResult)) (tx : String)
        (r : ExchangeResult),
      (∀ e ∈ events, e.2 = ReadResult.ok "") →
      (write_read true true events tx).2 = some r →
      r = .err .timeout) := by
  refine ⟨?_,
    fun events buf r hall h => readLoop_zero_bytes _ _ _ _ hall h,
    fun events tx r hall h => ?_⟩
  · rw [readLoop_cons_read _ _ _ _ _ (by simp [hb]) (Nat.not_le.mpr ht),
      if_neg (by decide)]
  · have h' : readLoop READ_TIMEOUT events "" = some r := h
    rcases readLoop_zero_bytes READ_TIMEOUT events "" r hall h' with
      ⟨hok, hc⟩ | hr
    · exact absurd hc (by decide)
    · exact hr

/-- Witness for C10 at concrete inputs. -/
theorem C10_witness :
    readLoop 500000000 [((0 : Nat), ReadResult.ok "")] ""
      = readLoop 500000000 [] "" ∧
    ((ExchangeResult.err .timeout = .ok "" ∧ containsCRLF "" = true) ∨
      ExchangeResult.err .timeout = ExchangeResult.err .timeout) ∧
    ExchangeResult.err ExchangeError.timeout
      = ExchangeResult.err ExchangeError.timeout := by
  have h := C10_zero_byte_reads 500000000 0 [] "" (by decide) (by decide)
  exact ⟨h.1,
    h.2.1 [((600000000 : Nat), ReadResult.ok "")] "" (.err .timeout)
      (by decide) (by decide),
    h.2.2 [((600000000 : Nat), ReadResult.ok "")] "$ST,0" (.err .timeout)
      (by decide) (by decide)⟩
example : fmtFixed2 (mkRat (-3) 1) = "-3.00" := by decide
example : fmtFixed2 (mkRat 1 8) = "0.12" := by decide
example : Command.to_string (.ConfigureDll 1 2 3 4 5 6)
    = "$DLES,0,1.00,2.00,3.00,4.00,5.00,6.00" := by decide
